import Mathlib

/-!
Shallow embedding of the `observable-socket` repository
(src/src/core/Message.ts and src/src/core/ObservableSocket.ts).

JSON values are modelled as a tree (`JVal`); the platform's
`JSON.stringify` / `JSON.parse` pair is modelled as the identity embedding
into / out of that tree: the JSON text grammar belongs to the platform, not
to this repository, so `Message.serialize` produces the JSON document tree
that `JSON.stringify(this)` prints (field order follows the class-field
declaration order; the function-valued `serialize` property is skipped by
`JSON.stringify`; an `undefined` `headers` field is omitted), and
deserialisation reads the five data fields back out of such a tree, the way
`JSON.parse(event.data) as Message` exposes them.  JS numbers are modelled
as integers (the payloads exchanged here are JSON-like data).
-/

inductive JVal where
  | null : JVal
  | bool (b : Bool) : JVal
  | num (n : Int) : JVal
  | str (s : String) : JVal
  | arr (xs : List JVal) : JVal
  | obj (fields : List (String × JVal)) : JVal

/-- A JS `Record<string, ...>` as an insertion-ordered association list. -/
abbrev RecordJ := List (String × JVal)

/-- Modelled from the spec: `StatusCodes` is imported from the package index,
which is not part of the provided sources; the spec says `status` is a
"small integer code" defaulting to a success code (the wire example shows
`200`), so status codes are modelled as integers. -/
abbrev StatusCodes := Int

/-- Modelled from the spec: the default success status code (`StatusCodes.OK`,
shown as `200` in the wire example). -/
def StatusCodes.OK : StatusCodes := 200

/-- `Message` from src/src/core/Message.ts.  Field order follows the class
field declaration order (`headers`, `uuid`, `route`, `payload`, `status`).
`route: string | null` is `Option String`; `headers?` is an `Option`al
record; `payload` is an arbitrary JSON-like value. -/
structure Message where
  headers : Option RecordJ
  uuid : String
  route : Option String
  payload : JVal
  status : StatusCodes

/-- The `Message` constructor, with the generated `crypto.randomUUID()`
value passed in explicitly (randomness is modelled as an input). -/
def Message.create (route : String) (payload : JVal)
    (headers : Option RecordJ := none)
    (status : StatusCodes := StatusCodes.OK)
    (uuid : Option String := none) (freshUuid : String) : Message :=
  { headers := headers
    uuid := match uuid with | some u => u | none => freshUuid
    route := some route
    payload := payload
    status := status }

/-- `Message.serialize = JSON.stringify(this)`, as the JSON document tree it
prints: keys in property-creation order, the `serialize` function property
skipped, the `headers` key omitted when `headers` is `undefined`. -/
def Message.serialize (m : Message) : JVal :=
  JVal.obj
    ((match m.headers with
      | some hs => [("headers", JVal.obj hs)]
      | none => []) ++
     [("uuid", JVal.str m.uuid),
      ("route", match m.route with | some r => JVal.str r | none => JVal.null),
      ("payload", m.payload),
      ("status", JVal.num m.status)])

/-- Reading a property of a parsed JSON object (`obj.key` after
`JSON.parse`): first binding wins (JSON objects have unique keys). -/
def jLookup (fields : List (String × JVal)) (k : String) : Option JVal :=
  fields.lookup k

/-- Deserialisation: `JSON.parse(text) as Message` — read the five data
fields back out of the parsed JSON document tree. -/
def deserializeMessage (j : JVal) : Option Message :=
  match j with
  | JVal.obj fields =>
    match jLookup fields "uuid", jLookup fields "route",
        jLookup fields "payload", jLookup fields "status" with
    | some (JVal.str u), some rv, some p, some (JVal.num st) =>
      let hs : Option RecordJ :=
        match jLookup fields "headers" with
        | some (JVal.obj l) => some l
        | _ => none
      match rv with
      | JVal.str r => some ⟨hs, u, some r, p, st⟩
      | JVal.null => some ⟨hs, u, none, p, st⟩
      | _ => none
    | _, _, _, _ => none
  | _ => none

/-- JS object spread `{...g, ...h}` with `h : Option RecordJ` possibly
`undefined` (`{...g, ...undefined}` copies `g`): keys of `g` in order with
`h`'s value where `h` overrides, then the keys of `h` not present in `g`,
in `h`'s order. -/
def spreadRecord (g : RecordJ) (h : Option RecordJ) : RecordJ :=
  match h with
  | none => g
  | some hs =>
      g.map (fun p =>
        match hs.lookup p.1 with
        | some v => (p.1, v)
        | none => p) ++
      hs.filter (fun q => (g.lookup q.1).isNone)

/-- Property read on a possibly-`undefined` record (`m.headers?.[k]`). -/
def lookupOpt (h : Option RecordJ) (k : String) : Option JVal :=
  match h with
  | none => none
  | some hs => hs.lookup k

/-!
### The session (`ObservableSocket`)

The session is a single-threaded state machine: all transport callbacks
(`onopen`, `onmessage`, `onerror`, `onclose`) and all timer callbacks
(heartbeat tick, heartbeat timeout, expiry sweep, reconnect delay) are
serialized onto one cooperative execution context.  Each callback is
embedded as a function from session state to session state plus the list of
externally observable actions it performs, in program order; an execution
is a list of such steps (`runSteps`).  Timer handles are modelled as
booleans (armed / not armed): a timer callback step on an un-armed timer is
a no-op, matching `clearTimeout` / `clearInterval`.  `Date.now()` and
`Math.random()` are modelled as inputs of the steps that read them.
-/

/-- `WebSocket.readyState`. -/
inductive ReadyState where
  | connecting : ReadyState
  | opened : ReadyState
  | closing : ReadyState
  | closed : ReadyState
deriving DecidableEq

/-- A pending-request record (`QueItem`): the stored expiry stamp.  The
stored `onMessage` handler is identified by the map key (the request uuid);
invoking it is recorded as an `Event.waiterCall` with that key. -/
structure QueItem where
  expire : Option Nat
deriving DecidableEq

/-- Externally observable actions performed by the session, in program
order. -/
inductive Event where
  /-- `this.onMessageReceived?.(response)` with `{message, success: true}`. -/
  | push (m : Message) : Event
  /-- invocation of the handler stored in `pendingRequests` under `uuid`,
  with `{message, success}`. -/
  | waiterCall (uuid : String) (m : Option Message) (success : Bool) : Event
  /-- `this.onSocketConnectionChange?.(name, state)`. -/
  | connChange (name : String) (state : Bool) : Event
  /-- `this.socket.send(message.serialize())`. -/
  | wireSend (j : JVal) : Event
  /-- a `console.error` / `console.warn` diagnostic. -/
  | logError : Event
  /-- `setTimeout(.., backoff + jitter)` registering the reconnect task. -/
  | scheduleReconnect (backoff : Nat) : Event
  /-- `this.socket?.close()` requested by this session. -/
  | requestClose : Event
  /-- `new WebSocket(socketUrl)`. -/
  | openTransport (url : String) : Event

/-- The mutable state of one `ObservableSocket`, together with its
configuration snapshot (the `readonly` fields resolved in the
constructor).  The optional callbacks are modelled by presence flags; the
socket handle by its ready state (`none` = no socket yet).
`reconnectScheduled` records a pending reconnect `setTimeout`. -/
structure SessionState where
  pendingRequests : List (String × QueItem)
  manuallyClosed : Bool
  reconnectAttempts : Nat
  heartbeatIntervalOn : Bool
  heartbeatTimeoutOn : Bool
  queManagerIntervalOn : Bool
  socketReady : Option ReadyState
  reconnectScheduled : Bool
  hasOnMessageReceived : Bool
  hasOnConnectionChange : Bool
  name : String
  socketUrl : String
  globalHeaders : RecordJ
  requestTimeout : Nat
  queManagerTimeout : Nat
  maxReconnectAttempts : Nat
  heartbeatRate : Nat
  heartbeatTimeoutDuration : Nat
  enableQueManager : Bool

/-- `MAX_TIMEOUT`. -/
def MAX_TIMEOUT : Nat := 1800000

/-- `MIN_QUE_TIMEOUT`. -/
def MIN_QUE_TIMEOUT : Nat := 2000

/-- `SocketConfig` (all options resolved). -/
structure SocketConfig where
  queManager : Bool
  queRunTimeout : Nat
  requestTimeout : Nat
  maxReconnectAttempts : Nat
  heartbeatRate : Nat
  heartbeatTimeoutDuration : Nat
  globalHeaders : RecordJ

/-- The default `socketConfig`. -/
def socketConfig : SocketConfig :=
  { queManager := false
    queRunTimeout := 5000
    requestTimeout := 30000
    maxReconnectAttempts := 5
    heartbeatRate := 60000
    heartbeatTimeoutDuration := 59000
    globalHeaders := [] }

/-- `Partial<SocketConfig>`: the user-supplied overrides. -/
structure PartialSocketConfig where
  queManager : Option Bool := none
  queRunTimeout : Option Nat := none
  requestTimeout : Option Nat := none
  maxReconnectAttempts : Option Nat := none
  heartbeatRate : Option Nat := none
  heartbeatTimeoutDuration : Option Nat := none
  globalHeaders : Option RecordJ := none

/-- `Object.assign({}, socketConfig, userConfig)`: per-key override of the
defaults. -/
def resolveConfig (userConfig : PartialSocketConfig) : SocketConfig :=
  { queManager := userConfig.queManager.getD socketConfig.queManager
    queRunTimeout := userConfig.queRunTimeout.getD socketConfig.queRunTimeout
    requestTimeout := userConfig.requestTimeout.getD socketConfig.requestTimeout
    maxReconnectAttempts :=
      userConfig.maxReconnectAttempts.getD socketConfig.maxReconnectAttempts
    heartbeatRate := userConfig.heartbeatRate.getD socketConfig.heartbeatRate
    heartbeatTimeoutDuration :=
      userConfig.heartbeatTimeoutDuration.getD socketConfig.heartbeatTimeoutDuration
    globalHeaders := userConfig.globalHeaders.getD socketConfig.globalHeaders }

/-- The constructor's clamp of `config.requestTimeout` into
`[MIN_QUE_TIMEOUT, MAX_TIMEOUT]`. -/
def clampRequestTimeout (t : Nat) : Nat :=
  if t > MAX_TIMEOUT then MAX_TIMEOUT
  else if t < MIN_QUE_TIMEOUT then MIN_QUE_TIMEOUT
  else t

namespace ObservableSocket

/-- The deterministic part of the reconnect delay:
`Math.min(max, base * 2 ** this.reconnectAttempts)` with `base = 1000` and
`max = 15000`.  The full delay adds `Math.random() * 300`. -/
def backoffMs (attempts : Nat) : Nat :=
  min 15000 (1000 * 2 ^ attempts)

/-- `JS Map.set`: replace the value in place if the key exists, else append
(JS `Map` preserves insertion order). -/
def jsMapSet (l : List (String × QueItem)) (k : String) (v : QueItem) :
    List (String × QueItem) :=
  if (l.lookup k).isSome then
    l.map (fun p => if p.1 == k then (k, v) else p)
  else
    l ++ [(k, v)]

/-- `JS Map.delete`: remove the binding of `k` (the first one; a JS map
holds at most one). -/
def jsMapDelete (l : List (String × QueItem)) (k : String) :
    List (String × QueItem) :=
  l.eraseP (fun p => p.1 == k)

/-- `private connect(socketUrl, enableQueManager)`, up to the handler
assignments (the handlers themselves are the steps below): create a new
transport and clear `manuallyClosed`. -/
def connectOp (s : SessionState) : SessionState × List Event :=
  ({ s with socketReady := some ReadyState.connecting, manuallyClosed := false },
   [Event.openTransport s.socketUrl])

/-- The `socket.onopen` handler (fires when the current transport reaches
OPEN): lifecycle callback, reset `reconnectAttempts`, start the heartbeat
loop, optionally start the sweep loop. -/
def onopenStep (s : SessionState) : SessionState × List Event :=
  if s.socketReady = some ReadyState.connecting then
    ({ s with socketReady := some ReadyState.opened
              reconnectAttempts := 0
              heartbeatIntervalOn := true
              queManagerIntervalOn :=
                if s.enableQueManager then true else s.queManagerIntervalOn },
     if s.hasOnConnectionChange then [Event.connChange s.name true] else [])
  else (s, [])

/-- The `socket.onmessage` handler.  Its input is the result of
`JSON.parse(event.data) as Message`: `none` models a frame whose parse
throws (the `catch` branch logs and returns). -/
def onmessageStep (s : SessionState) (parsed : Option Message) :
    SessionState × List Event :=
  if s.socketReady = some ReadyState.opened then
    match parsed with
    | none => (s, [Event.logError])
    | some m =>
      if m.route == some "PONG" then
        ({ s with heartbeatTimeoutOn := false }, [])
      else
        let pushEvs : List Event :=
          if s.hasOnMessageReceived then [Event.push m] else []
        match s.pendingRequests.lookup m.uuid with
        | some _ =>
          ({ s with pendingRequests := jsMapDelete s.pendingRequests m.uuid },
           pushEvs ++ [Event.waiterCall m.uuid (some m) true])
        | none => (s, pushEvs)
  else (s, [])

/-- Whether a close event can still fire on the current transport. -/
def oncloseEnabled (s : SessionState) : Bool :=
  s.socketReady = some ReadyState.connecting ||
  s.socketReady = some ReadyState.opened ||
  s.socketReady = some ReadyState.closing

/-- The `socket.onclose` handler: stop the sweep and heartbeat loops, fail
every pending request with `{message: null, success: false}` and clear the
table, fire the lifecycle callback, then decide about reconnecting
(policy/auth close codes 1008 and 1011 are terminal; `manuallyClosed` is
terminal; otherwise schedule a reconnect while the retry budget lasts). -/
def oncloseStep (s : SessionState) (code : Nat) : SessionState × List Event :=
  if oncloseEnabled s then
    let s1 : SessionState :=
      { s with queManagerIntervalOn := false
               heartbeatIntervalOn := false
               heartbeatTimeoutOn := false
               pendingRequests := []
               socketReady := some ReadyState.closed }
    let failEvs : List Event :=
      s.pendingRequests.map (fun p => Event.waiterCall p.1 none false)
    let connEvs : List Event :=
      if s.hasOnConnectionChange then [Event.connChange s.name false] else []
    if code == 1008 || code == 1011 then
      (s1, failEvs ++ connEvs ++ [Event.logError])
    else if s.manuallyClosed then
      (s1, failEvs ++ connEvs)
    else if s.reconnectAttempts < s.maxReconnectAttempts then
      ({ s1 with reconnectScheduled := true },
       failEvs ++ connEvs ++ [Event.scheduleReconnect (backoffMs s.reconnectAttempts)])
    else
      (s1, failEvs ++ connEvs ++ [Event.logError])
  else (s, [])

/-- The reconnect `setTimeout` callback: increment `reconnectAttempts` and
re-enter `connect` with the same url and configuration.  Note that it does
not test `manuallyClosed`, and `connect` resets it. -/
def reconnectFireStep (s : SessionState) : SessionState × List Event :=
  if s.reconnectScheduled then
    connectOp { s with reconnectScheduled := false
                       reconnectAttempts := s.reconnectAttempts + 1 }
  else (s, [])

/-- The sweep interval callback (`startQueManager`): for every pending
request whose `expire` stamp is truthy and in the past, invoke its handler
with `{message: null, success: false}` and delete it. -/
def queItemExpired (q : QueItem) (now : Nat) : Bool :=
  match q.expire with
  | some e => e != 0 && e < now
  | none => false

/-- One tick of the sweep interval. -/
def sweepStep (s : SessionState) (now : Nat) : SessionState × List Event :=
  if s.queManagerIntervalOn then
    ({ s with pendingRequests :=
        s.pendingRequests.filter (fun p => !queItemExpired p.2 now) },
     (s.pendingRequests.filter (fun p => queItemExpired p.2 now)).map
       (fun p => Event.waiterCall p.1 none false))
  else (s, [])

/-- `sendMessage(message)`: when the transport is OPEN, overwrite
`message.headers` with the global headers overlaid by the message's own
headers and write the serialized message to the wire; otherwise log an
error.  Returns the (possibly mutated) message — sends mutate the caller's
envelope in place — and the actions performed; no session field changes. -/
def sendMessage (s : SessionState) (m : Message) : Message × List Event :=
  if s.socketReady = some ReadyState.opened then
    let m' : Message := { m with headers := some (spreadRecord s.globalHeaders m.headers) }
    (m', [Event.wireSend m'.serialize])
  else
    (m, [Event.logError])

/-- `onResponse(request, onReceivedAction)`: merge the headers into the
request, register the waiter under the request's uuid with
`expire = Date.now() + this.requestTimeout`, then `sendMessage` it. -/
def onResponse (s : SessionState) (m : Message) (now : Nat) :
    Message × SessionState × List Event :=
  let m1 : Message := { m with headers := some (spreadRecord s.globalHeaders m.headers) }
  let s1 : SessionState :=
    { s with pendingRequests :=
        jsMapSet s.pendingRequests m.uuid ⟨some (now + s.requestTimeout)⟩ }
  let r := sendMessage s1 m1
  (r.1, s1, r.2)

/-- `sendAndWait(message)`: reject when no transport is OPEN at call time,
else register the promise's `resolve` through `onResponse`. -/
def sendAndWait (s : SessionState) (m : Message) (now : Nat) :
    Except String (Message × SessionState × List Event) :=
  if s.socketReady = some ReadyState.opened then
    Except.ok (onResponse s m now)
  else
    Except.error "WebSocket is not connected."

/-- One tick of the heartbeat interval (`startHeartbeat`): when the
transport is OPEN, send a fresh `PING` message and (re-)arm the
heartbeat-timeout timer.  The `PING`'s generated uuid is an input. -/
def heartbeatTickStep (s : SessionState) (pingUuid : String) :
    SessionState × List Event :=
  if s.heartbeatIntervalOn then
    if s.socketReady = some ReadyState.opened then
      let r := sendMessage s (Message.create "PING" (JVal.obj []) none StatusCodes.OK none pingUuid)
      ({ s with heartbeatTimeoutOn := true }, r.2)
    else (s, [])
  else (s, [])

/-- The heartbeat-timeout callback: no `PONG` arrived, so warn and request
the transport to close. -/
def heartbeatTimeoutFireStep (s : SessionState) : SessionState × List Event :=
  if s.heartbeatTimeoutOn then
    ({ s with heartbeatTimeoutOn := false
              socketReady :=
                if s.socketReady = some ReadyState.connecting ||
                   s.socketReady = some ReadyState.opened then
                  some ReadyState.closing
                else s.socketReady },
     [Event.logError, Event.requestClose])
  else (s, [])

/-- `close()`: set `manuallyClosed`, stop the sweep and heartbeat timers
immediately, and request the transport to close.  It does not touch
`pendingRequests` (those are failed later, by the `onclose` event), and it
does not cancel a pending reconnect `setTimeout`. -/
def close (s : SessionState) : SessionState × List Event :=
  ({ s with manuallyClosed := true
            queManagerIntervalOn := false
            heartbeatIntervalOn := false
            heartbeatTimeoutOn := false
            socketReady :=
              if s.socketReady = some ReadyState.connecting ||
                 s.socketReady = some ReadyState.opened then
                some ReadyState.closing
              else s.socketReady },
   [Event.requestClose])

/-- One serialized turn of the session's execution context. -/
inductive Step where
  | onopen : Step
  | onmessage (parsed : Option Message) : Step
  | onclose (code : Nat) : Step
  | reconnectFire : Step
  | sweep (now : Nat) : Step
  | heartbeatTick (pingUuid : String) : Step
  | heartbeatTimeoutFire : Step
  | userClose : Step
  | userSend (m : Message) : Step
  | userOnResponse (m : Message) (now : Nat) : Step
  | userSendAndWait (m : Message) (now : Nat) : Step

/-- Interpretation of one step. -/
def stepF (s : SessionState) : Step → SessionState × List Event
  | Step.onopen => onopenStep s
  | Step.onmessage parsed => onmessageStep s parsed
  | Step.onclose code => oncloseStep s code
  | Step.reconnectFire => reconnectFireStep s
  | Step.sweep now => sweepStep s now
  | Step.heartbeatTick u => heartbeatTickStep s u
  | Step.heartbeatTimeoutFire => heartbeatTimeoutFireStep s
  | Step.userClose => close s
  | Step.userSend m => (s, (sendMessage s m).2)
  | Step.userOnResponse m now =>
      let r := onResponse s m now
      (r.2.1, r.2.2)
  | Step.userSendAndWait m now =>
      match sendAndWait s m now with
      | Except.ok r => (r.2.1, r.2.2)
      | Except.error _ => (s, [])

/-- Run a list of steps, collecting events in order. -/
def runSteps (s : SessionState) : List Step → SessionState × List Event
  | [] => (s, [])
  | st :: tr =>
    let r := stepF s st
    let r2 := runSteps r.1 tr
    (r2.1, r.2 ++ r2.2)

/-- Does the event invoke the waiter registered under `u`? -/
def isWaiterCall (u : String) : Event → Bool
  | Event.waiterCall v _ _ => v == u
  | _ => false

/-- Number of invocations of the waiter registered under `u`. -/
def waiterCount (u : String) (evs : List Event) : Nat :=
  (evs.filter (isWaiterCall u)).length

/-- Is the event an invocation of any waiter? -/
def isAnyWaiterCall : Event → Bool
  | Event.waiterCall _ _ _ => true
  | _ => false

/-- Number of waiter invocations of any kind. -/
def anyWaiterCount (evs : List Event) : Nat :=
  (evs.filter isAnyWaiterCall).length

/-- Is the event a write to the wire? -/
def isWireSend : Event → Bool
  | Event.wireSend _ => true
  | _ => false

/-- Number of wire writes. -/
def wireSendCount (evs : List Event) : Nat :=
  (evs.filter isWireSend).length

/-- Is the event the registration of a reconnect task? -/
def isScheduleReconnect : Event → Bool
  | Event.scheduleReconnect _ => true
  | _ => false

/-- Number of reconnect registrations. -/
def scheduleReconnectCount (evs : List Event) : Nat :=
  (evs.filter isScheduleReconnect).length

/-- Is the event the creation of a new transport? -/
def isOpenTransport : Event → Bool
  | Event.openTransport _ => true
  | _ => false

/-- Number of transport creations. -/
def openTransportCount (evs : List Event) : Nat :=
  (evs.filter isOpenTransport).length

/-- Number of bindings of key `u` in a pending-request table. -/
def keyCount (u : String) (l : List (String × QueItem)) : Nat :=
  (l.filter (fun p => p.1 == u)).length

/-- Number of pending-request entries stored under key `u`. -/
def pendCount (u : String) (s : SessionState) : Nat :=
  keyCount u s.pendingRequests

/-- Is the step the transport's open callback? -/
def isOnopen : Step → Bool
  | Step.onopen => true
  | _ => false

/-- First-defined-wins choice on optional values (the overlay reading of a
merged header map: the request's own binding if present, else the global
one). -/
def orElseO (a b : Option JVal) : Option JVal :=
  match a with
  | some v => some v
  | none => b

/-- A concrete session state used to exercise the theorems: transport OPEN,
one pending request `"u1"` expiring at 10, both callbacks registered, both
timer loops running. -/
def sampleState : SessionState :=
  { pendingRequests := [("u1", ⟨some 10⟩)]
    manuallyClosed := false
    reconnectAttempts := 0
    heartbeatIntervalOn := true
    heartbeatTimeoutOn := false
    queManagerIntervalOn := true
    socketReady := some ReadyState.opened
    reconnectScheduled := false
    hasOnMessageReceived := true
    hasOnConnectionChange := true
    name := "app"
    socketUrl := "wss://example.com/ws/app/"
    globalHeaders := [("token", JVal.str "XYZ")]
    requestTimeout := 30000
    queManagerTimeout := 5000
    maxReconnectAttempts := 5
    heartbeatRate := 60000
    heartbeatTimeoutDuration := 59000
    enableQueManager := true }

/-- A concrete inbound message matching the pending request of
`sampleState`. -/
def sampleReply : Message :=
  ⟨none, "u1", some "sayHello", JVal.obj [("name", JVal.str "X")], 200⟩

/-- A concrete request message with a header that collides with the global
headers of `sampleState`. -/
def sampleRequest : Message :=
  ⟨some [("token", JVal.str "mine")], "u9", some "sayHello", JVal.null, 200⟩

/-- The sample state with its reconnect budget exhausted. -/
def maxedState : SessionState :=
  { sampleState with
      reconnectAttempts := 5
      socketReady := some ReadyState.connecting }

/-- Does the step register a waiter under uuid `u` (`onResponse`, also via
`sendAndWait`)? -/
def registersUuid (u : String) : Step → Bool
  | Step.userOnResponse m _ => m.uuid == u
  | Step.userSendAndWait m _ => m.uuid == u
  | _ => false

end ObservableSocket

/-!
### Helper lemmas
-/

namespace ObservableSocket

theorem waiterCount_append (u : String) (l1 l2 : List Event) :
    waiterCount u (l1 ++ l2) = waiterCount u l1 + waiterCount u l2 := by
  simp [waiterCount, List.filter_append]

theorem waiterCount_map_fail (u : String) (l : List (String × QueItem)) :
    waiterCount u (l.map fun p => Event.waiterCall p.1 none false) = keyCount u l := by
  induction l with
  | nil => rfl
  | cons p t ih =>
    simp only [List.map_cons, waiterCount, keyCount, List.filter_cons] at *
    cases h : (p.1 == u) <;> simp [isWaiterCall, h] <;> simpa [waiterCount, keyCount] using ih

theorem keyCount_cons (u : String) (p : String × QueItem)
    (t : List (String × QueItem)) :
    keyCount u (p :: t) = (if p.1 = u then 1 else 0) + keyCount u t := by
  by_cases hpu : p.1 = u
  · simp [keyCount, List.filter_cons, hpu, Nat.add_comm]
  · simp [keyCount, List.filter_cons, beq_false_of_ne hpu, hpu]

theorem keyCount_eraseP_self {u : String} {l : List (String × QueItem)}
    (h : (l.lookup u).isSome) :
    keyCount u (l.eraseP (fun p => p.1 == u)) + 1 = keyCount u l := by
  induction l with
  | nil => simp [List.lookup] at h
  | cons p t ih =>
    by_cases hpu : p.1 = u
    · simp [List.eraseP_cons, keyCount_cons, hpu, beq_iff_eq, Nat.add_comm]
    · have h1 : (p.1 == u) = false := beq_false_of_ne hpu
      have h2 : (u == p.1) = false := beq_false_of_ne (Ne.symm hpu)
      have h' : (t.lookup u).isSome := by
        simpa [List.lookup, h2] using h
      rw [List.eraseP_cons, h1]
      simp only [cond_false]
      rw [keyCount_cons, keyCount_cons, if_neg hpu]
      simpa [Nat.add_assoc] using ih h'

theorem keyCount_eraseP_ne {u v : String} (hvu : v ≠ u)
    (l : List (String × QueItem)) :
    keyCount u (l.eraseP (fun p => p.1 == v)) = keyCount u l := by
  induction l with
  | nil => rfl
  | cons p t ih =>
    by_cases hpv : p.1 = v
    · rw [List.eraseP_cons, beq_iff_eq.mpr hpv]
      simp only [cond_true]
      rw [keyCount_cons, if_neg (by rw [hpv]; exact hvu), Nat.zero_add]
    · rw [List.eraseP_cons, beq_false_of_ne hpv]
      simp only [cond_false]
      rw [keyCount_cons, keyCount_cons, ih]

theorem keyCount_filter_split (u : String) (P : String × QueItem → Bool)
    (l : List (String × QueItem)) :
    keyCount u (l.filter fun p => !(P p)) + keyCount u (l.filter P) = keyCount u l := by
  induction l with
  | nil => rfl
  | cons p t ih =>
    cases hP : P p <;>
      simp only [List.filter_cons, hP, Bool.not_true, Bool.not_false, if_true,
        if_false, keyCount_cons, ite_true, ite_false] <;>
      by_cases hpu : p.1 = u <;>
      simp [keyCount_cons, hpu] <;> omega

theorem keyCount_map_set {u v : String} (hvu : v ≠ u) (q : QueItem)
    (l : List (String × QueItem)) :
    keyCount u (l.map (fun p => if p.1 == v then (v, q) else p)) = keyCount u l := by
  induction l with
  | nil => rfl
  | cons p t ih =>
    by_cases hpv : p.1 = v
    · rw [List.map_cons, if_pos (beq_iff_eq.mpr hpv), keyCount_cons, keyCount_cons,
        if_neg hvu, if_neg (by rw [hpv]; exact hvu), ih]
    · rw [List.map_cons, if_neg (by simpa using hpv), keyCount_cons, keyCount_cons, ih]

theorem keyCount_append (u : String) (l1 l2 : List (String × QueItem)) :
    keyCount u (l1 ++ l2) = keyCount u l1 + keyCount u l2 := by
  simp [keyCount, List.filter_append]

theorem keyCount_jsMapSet_ne {u v : String} (hvu : v ≠ u)
    (l : List (String × QueItem)) (q : QueItem) :
    keyCount u (jsMapSet l v q) = keyCount u l := by
  unfold jsMapSet
  split
  · exact keyCount_map_set hvu q l
  · rw [keyCount_append, keyCount_cons]
    simp [hvu, keyCount]

theorem waiterCount_ite_nil (u : String) (c : Bool) (e : Event)
    (h : isWaiterCall u e = false) :
    waiterCount u (if c then [e] else []) = 0 := by
  cases c <;> simp [waiterCount, List.filter, h]

theorem waiterCount_nil (u : String) : waiterCount u [] = 0 := rfl

theorem keyCount_nil (u : String) : keyCount u [] = 0 := rfl

theorem waiterCount_logError (u : String) : waiterCount u [Event.logError] = 0 := rfl

theorem waiterCount_schedule (u : String) (b : Nat) :
    waiterCount u [Event.scheduleReconnect b] = 0 := rfl

theorem waiterCount_cons (u : String) (e : Event) (l : List Event) :
    waiterCount u (e :: l) = (if isWaiterCall u e then 1 else 0) + waiterCount u l := by
  cases h : isWaiterCall u e <;> simp [waiterCount, List.filter_cons, h, Nat.add_comm]

theorem waiterCount_single_waiter (u v : String) (x : Option Message) (b : Bool) :
    waiterCount u [Event.waiterCall v x b] = if v = u then 1 else 0 := by
  by_cases h : v = u <;>
    simp [waiterCount, isWaiterCall, List.filter, h, beq_iff_eq, beq_false_of_ne]

/-- Core single-step accounting for claim C1: a step that does not register
a new waiter under `u` either leaves the `u` entries alone and invokes no
`u` waiter, or consumes entries and invokes the waiter once per consumed
entry — in sum, invocations plus remaining entries are conserved. -/
theorem step_waiter_balance (u : String) (s : SessionState) (st : Step)
    (h : registersUuid u st = false) :
    waiterCount u (stepF s st).2 + pendCount u (stepF s st).1 = pendCount u s := by
  cases st with
  | onopen =>
    simp only [stepF, onopenStep]
    split
    · simp [pendCount, waiterCount_ite_nil, isWaiterCall]
    · simp [pendCount, waiterCount]
  | onmessage parsed =>
    simp only [stepF, onmessageStep]
    by_cases hready : s.socketReady = some ReadyState.opened
    · rw [if_pos hready]
      cases parsed with
      | none => simp [waiterCount, isWaiterCall, pendCount, List.filter]
      | some m =>
        by_cases hpong : (m.route == some "PONG") = true
        · simp [hpong, waiterCount, pendCount, List.filter]
        · rw [Bool.not_eq_true] at hpong
          simp only [hpong, Bool.false_eq_true, if_false]
          rcases hlk : List.lookup m.uuid s.pendingRequests with _ | q
          · dsimp only
            rw [waiterCount_ite_nil u s.hasOnMessageReceived (Event.push m) rfl,
              Nat.zero_add]
          · dsimp only
            simp only [pendCount, jsMapDelete, waiterCount_append,
              waiterCount_ite_nil u s.hasOnMessageReceived (Event.push m) rfl,
              waiterCount_single_waiter, Nat.zero_add]
            by_cases hm : m.uuid = u
            · subst hm
              rw [if_pos rfl]
              have hx := keyCount_eraseP_self (l := s.pendingRequests) (u := m.uuid)
                (by rw [hlk]; rfl)
              omega
            · rw [if_neg hm, keyCount_eraseP_ne hm, Nat.zero_add]
    · rw [if_neg hready]
      simp [waiterCount, pendCount]
  | onclose code =>
    simp only [stepF, oncloseStep]
    by_cases hen : oncloseEnabled s = true
    · rw [if_pos hen]
      have hfail : waiterCount u
          (s.pendingRequests.map fun p => Event.waiterCall p.1 none false) =
          keyCount u s.pendingRequests := waiterCount_map_fail u s.pendingRequests
      have hconn : waiterCount u
          (if s.hasOnConnectionChange then [Event.connChange s.name false] else []) = 0 :=
        waiterCount_ite_nil u s.hasOnConnectionChange (Event.connChange s.name false) rfl
      split_ifs <;>
        simp [pendCount, waiterCount_append, hfail, hconn, waiterCount_logError,
          waiterCount_schedule, waiterCount_nil, keyCount_nil, waiterCount_cons,
          isWaiterCall]
    · rw [if_neg hen]
      simp [waiterCount, pendCount]
  | reconnectFire =>
    simp only [stepF, reconnectFireStep, connectOp]
    split <;> simp [waiterCount, isWaiterCall, List.filter, pendCount]
  | sweep now =>
    simp only [stepF, sweepStep]
    split
    · simp only [pendCount, waiterCount_map_fail]
      have := keyCount_filter_split u (fun p => queItemExpired p.2 now) s.pendingRequests
      omega
    · simp [waiterCount, pendCount]
  | heartbeatTick pingUuid =>
    simp only [stepF, heartbeatTickStep, sendMessage]
    split_ifs <;>
      simp [waiterCount_cons, isWaiterCall, waiterCount_nil, pendCount]
  | heartbeatTimeoutFire =>
    simp only [stepF, heartbeatTimeoutFireStep]
    split <;> simp [waiterCount, isWaiterCall, List.filter, pendCount]
  | userClose =>
    simp [stepF, close, waiterCount, isWaiterCall, List.filter, pendCount]
  | userSend m =>
    simp only [stepF, sendMessage]
    split <;> simp [waiterCount, isWaiterCall, List.filter, pendCount]
  | userOnResponse m now =>
    simp only [registersUuid, beq_eq_false_iff_ne, ne_eq] at h
    simp only [stepF, onResponse, sendMessage]
    split <;>
      simp [waiterCount, isWaiterCall, List.filter, pendCount,
        keyCount_jsMapSet_ne h]
  | userSendAndWait m now =>
    simp only [registersUuid, beq_eq_false_iff_ne, ne_eq] at h
    simp only [stepF, sendAndWait]
    by_cases hready : s.socketReady = some ReadyState.opened
    · rw [if_pos hready]
      simp only [onResponse, sendMessage]
      split <;>
        simp [waiterCount, isWaiterCall, List.filter, pendCount,
          keyCount_jsMapSet_ne h]
    · rw [if_neg hready]
      simp [waiterCount, pendCount]

/-- Trace-level accounting: over a whole execution that never re-registers
the correlation id `u`, the number of `u`-waiter invocations plus the
number of `u` entries still pending is conserved. -/
theorem run_waiter_balance (u : String) (s : SessionState) (tr : List Step)
    (h : ∀ st ∈ tr, registersUuid u st = false) :
    waiterCount u (runSteps s tr).2 + pendCount u (runSteps s tr).1 = pendCount u s := by
  induction tr generalizing s with
  | nil => simp [runSteps, waiterCount]
  | cons st tr ih =>
    simp only [runSteps, waiterCount_append]
    have h1 := step_waiter_balance u s st (h st (by simp))
    have h2 := ih (stepF s st).1 (fun x hx => h x (by simp [hx]))
    omega


end ObservableSocket

namespace ObservableSocket

theorem lookup_cons_pair {β : Type} (a k : String) (v : β) (l : List (String × β)) :
    List.lookup a ((k, v) :: l) = if a = k then some v else List.lookup a l := by
  rw [List.lookup_cons]
  by_cases h : a = k
  · simp [h]
  · simp [beq_false_of_ne h, h]

theorem lookup_append_of_some {β : Type} {a : String} {l1 : List (String × β)}
    {v : β} (l2 : List (String × β)) (h : l1.lookup a = some v) :
    (l1 ++ l2).lookup a = some v := by
  induction l1 with
  | nil => simp [List.lookup] at h
  | cons p t ih =>
    obtain ⟨pk, pv⟩ := p
    by_cases hk : a = pk
    · rw [lookup_cons_pair, if_pos hk] at h
      rw [List.cons_append, lookup_cons_pair, if_pos hk]
      exact h
    · rw [lookup_cons_pair, if_neg hk] at h
      rw [List.cons_append, lookup_cons_pair, if_neg hk]
      exact ih h

theorem lookup_append_of_none {β : Type} {a : String} {l1 : List (String × β)}
    (l2 : List (String × β)) (h : l1.lookup a = none) :
    (l1 ++ l2).lookup a = l2.lookup a := by
  induction l1 with
  | nil => rfl
  | cons p t ih =>
    obtain ⟨pk, pv⟩ := p
    by_cases hk : a = pk
    · rw [lookup_cons_pair, if_pos hk] at h
      exact absurd h (by simp)
    · rw [lookup_cons_pair, if_neg hk] at h
      rw [List.cons_append, lookup_cons_pair, if_neg hk]
      exact ih h

theorem lookup_cons_key_ne {β : Type} (a : String) (p : String × β)
    (l : List (String × β)) (h : ¬a = p.1) :
    List.lookup a (p :: l) = List.lookup a l := by
  obtain ⟨pk, pv⟩ := p
  rw [lookup_cons_pair, if_neg h]

theorem lookup_filter_keyfun (k : String) (P Q : String × JVal → Bool)
    (l : List (String × JVal)) (h : ∀ q ∈ l, q.1 = k → P q = Q q) :
    (l.filter P).lookup k = (l.filter Q).lookup k := by
  induction l with
  | nil => rfl
  | cons r t ih =>
    have ht : ∀ q ∈ t, q.1 = k → P q = Q q :=
      fun q hq => h q (List.mem_cons_of_mem r hq)
    obtain ⟨rk, rv⟩ := r
    by_cases hrk : rk = k
    · have hPQ : P (rk, rv) = Q (rk, rv) := h (rk, rv) (List.mem_cons_self _ t) hrk
      rw [List.filter_cons, List.filter_cons, hPQ]
      cases hQ2 : Q (rk, rv)
      · simp only [Bool.false_eq_true, if_false]
        exact ih ht
      · simp only [if_true]
        rw [lookup_cons_pair, lookup_cons_pair]
        by_cases hk : k = rk
        · rw [if_pos hk, if_pos hk]
        · rw [if_neg hk, if_neg hk]
          exact ih ht
    · have hrk' : ¬k = rk := fun hx => hrk hx.symm
      rw [List.filter_cons, List.filter_cons]
      cases hP : P (rk, rv) <;> cases hQ : Q (rk, rv)
      · simp only [Bool.false_eq_true, if_false]
        exact ih ht
      · simp only [Bool.false_eq_true, if_false, if_true]
        rw [lookup_cons_pair, if_neg hrk']
        exact ih ht
      · simp only [Bool.false_eq_true, if_false, if_true]
        rw [lookup_cons_pair, if_neg hrk']
        exact ih ht
      · simp only [if_true]
        rw [lookup_cons_pair, if_neg hrk', lookup_cons_pair, if_neg hrk']
        exact ih ht

theorem lookup_spreadRecord (g : RecordJ) (h : Option RecordJ) (k : String) :
    (spreadRecord g h).lookup k = orElseO (lookupOpt h k) (g.lookup k) := by
  cases h with
  | none => cases hg : g.lookup k <;> simp [spreadRecord, lookupOpt, orElseO, hg]
  | some hs =>
    induction g with
    | nil =>
      have hfil : (hs.filter fun q => (List.lookup q.1 ([] : RecordJ)).isNone) = hs := by
        apply List.filter_eq_self.mpr
        intro a _
        rfl
      simp only [spreadRecord, List.map_nil, List.nil_append, hfil, lookupOpt]
      cases hh : hs.lookup k <;> simp [orElseO, List.lookup, hh]
    | cons p g' ih =>
      obtain ⟨pk, pv⟩ := p
      by_cases hk : k = pk
      · subst hk
        cases hh : hs.lookup k with
        | some v =>
          simp only [spreadRecord, List.map_cons, hh, List.cons_append, lookupOpt]
          rw [lookup_cons_pair, if_pos rfl]
          rfl
        | none =>
          simp only [spreadRecord, List.map_cons, hh, List.cons_append, lookupOpt]
          rw [lookup_cons_pair, if_pos rfl, lookup_cons_pair, if_pos rfl]
          rfl
      · have hstep : List.lookup k (((pk, pv) :: g') : RecordJ) = List.lookup k g' := by
          rw [lookup_cons_pair, if_neg hk]
        have hfil : (hs.filter fun q =>
            (List.lookup q.1 (((pk, pv) :: g') : RecordJ)).isNone).lookup k =
            (hs.filter fun q => (List.lookup q.1 g').isNone).lookup k := by
          apply lookup_filter_keyfun
          intro q _ hq
          rw [hq, hstep]
        have hkey : (match hs.lookup pk with
            | some v => (pk, v)
            | none => (pk, pv) : String × JVal).1 = pk := by
          cases hs.lookup pk <;> rfl
        simp only [spreadRecord, List.map_cons] at ih ⊢
        rw [List.cons_append, lookup_cons_key_ne k _ _ (by rw [hkey]; exact hk),
          lookupOpt, hstep]
        simp only [lookupOpt] at ih
        cases hh : (g'.map fun p =>
            match hs.lookup p.1 with
            | some v => (p.1, v)
            | none => p).lookup k with
        | some v =>
          rw [lookup_append_of_some _ hh]
          rw [lookup_append_of_some _ hh] at ih
          exact ih
        | none =>
          rw [lookup_append_of_none _ hh, hfil]
          rw [lookup_append_of_none _ hh] at ih
          exact ih

theorem orElseO_absorb (a b : Option JVal) : orElseO (orElseO a b) b = orElseO a b := by
  cases a <;> cases b <;> rfl

theorem mem_of_lookup {β : Type} {u : String} {l : List (String × β)} {q : β}
    (h : l.lookup u = some q) : (u, q) ∈ l := by
  induction l with
  | nil => simp [List.lookup] at h
  | cons p t ih =>
    obtain ⟨pk, pv⟩ := p
    by_cases hpk : u = pk
    · rw [lookup_cons_pair, if_pos hpk] at h
      injection h with h
      subst hpk
      subst h
      exact List.mem_cons_self _ _
    · rw [lookup_cons_pair, if_neg hpk] at h
      exact List.mem_cons_of_mem _ (ih h)

theorem keyCount_pos_of_lookup {u : String} {l : List (String × QueItem)} {q : QueItem}
    (h : l.lookup u = some q) : 1 ≤ keyCount u l := by
  have h1 := mem_of_lookup h
  have h2 : (u, q) ∈ l.filter (fun p => p.1 == u) :=
    List.mem_filter.mpr ⟨h1, by simp⟩
  exact List.length_pos.mpr (List.ne_nil_of_mem h2)

theorem lookup_map_set_self {u : String} {l : List (String × QueItem)} (q : QueItem)
    (hx : (l.lookup u).isSome = true) :
    (l.map fun p => if p.1 == u then (u, q) else p).lookup u = some q := by
  induction l with
  | nil => simp [List.lookup] at hx
  | cons p t ih =>
    obtain ⟨pk, pv⟩ := p
    by_cases hpu : pk = u
    · rw [List.map_cons, if_pos (beq_iff_eq.mpr hpu), lookup_cons_pair, if_pos rfl]
    · rw [List.map_cons, if_neg (by simpa using hpu), lookup_cons_pair,
        if_neg (fun hx2 => hpu hx2.symm)]
      apply ih
      rw [lookup_cons_pair, if_neg (fun hx2 => hpu hx2.symm)] at hx
      exact hx

theorem lookup_jsMapSet_self (l : List (String × QueItem)) (u : String) (q : QueItem) :
    (jsMapSet l u q).lookup u = some q := by
  unfold jsMapSet
  split
  · exact lookup_map_set_self q (by assumption)
  · rename_i hx
    rw [lookup_append_of_none _ (Option.not_isSome_iff_eq_none.mp (by simpa using hx)),
      lookup_cons_pair, if_pos rfl]

theorem keyCount_filter_le (u : String) (P : String × QueItem → Bool)
    (l : List (String × QueItem)) :
    keyCount u (l.filter P) ≤ keyCount u l := by
  induction l with
  | nil => exact Nat.le_refl 0
  | cons p t ih =>
    rw [List.filter_cons, keyCount_cons]
    cases hP : P p
    · simp only [Bool.false_eq_true, if_false]
      omega
    · simp only [if_true]
      rw [keyCount_cons]
      omega

theorem sweep_removes_expired {u : String} {l : List (String × QueItem)}
    {q : QueItem} {now : Nat}
    (h1 : keyCount u l = 1) (h2 : l.lookup u = some q)
    (h3 : queItemExpired q now = true) :
    keyCount u (l.filter fun p => !queItemExpired p.2 now) = 0 := by
  induction l with
  | nil => simp [List.lookup] at h2
  | cons p t ih =>
    obtain ⟨pk, pv⟩ := p
    by_cases hpk : pk = u
    · rw [lookup_cons_pair, if_pos hpk.symm] at h2
      injection h2 with h2
      subst h2
      rw [keyCount_cons, if_pos hpk] at h1
      rw [List.filter_cons, h3]
      simp only [Bool.not_true, Bool.false_eq_true, if_false]
      have hle := keyCount_filter_le u (fun p => !queItemExpired p.2 now) t
      omega
    · rw [lookup_cons_pair, if_neg (fun hx => hpk hx.symm)] at h2
      rw [keyCount_cons, if_neg hpk, Nat.zero_add] at h1
      rw [List.filter_cons]
      cases hP : !queItemExpired pv now
      · simp only [Bool.false_eq_true, if_false]
        exact ih h1 h2
      · simp only [if_true]
        rw [keyCount_cons, if_neg hpk, Nat.zero_add]
        exact ih h1 h2

theorem waiterCount_pos_of_mem {u : String} {l : List (String × QueItem)} {q : QueItem}
    (P : String × QueItem → Bool) (hmem : (u, q) ∈ l) (hP : P (u, q) = true) :
    1 ≤ waiterCount u ((l.filter P).map fun p => Event.waiterCall p.1 none false) := by
  have h1 : (u, q) ∈ l.filter P := List.mem_filter.mpr ⟨hmem, hP⟩
  have h2 : Event.waiterCall u none false ∈
      (l.filter P).map (fun p => Event.waiterCall p.1 none false) :=
    List.mem_map.mpr ⟨(u, q), h1, rfl⟩
  have h3 : Event.waiterCall u none false ∈
      ((l.filter P).map (fun p => Event.waiterCall p.1 none false)).filter
        (isWaiterCall u) :=
    List.mem_filter.mpr ⟨h2, by simp [isWaiterCall]⟩
  exact List.length_pos.mpr (List.ne_nil_of_mem h3)

/-- The `onclose` handler invokes, for every uuid, exactly as many waiters
as there are entries stored under that uuid. -/
theorem onclose_waiterCount (s : SessionState) (code : Nat) (u : String)
    (hen : oncloseEnabled s = true) :
    waiterCount u (oncloseStep s code).2 = pendCount u s := by
  simp only [oncloseStep]
  rw [if_pos hen]
  have hconn :=
    waiterCount_ite_nil u s.hasOnConnectionChange (Event.connChange s.name false) rfl
  split_ifs <;>
    simp [waiterCount_append, waiterCount_map_fail, hconn, waiterCount_logError,
      waiterCount_schedule, waiterCount_nil, pendCount, waiterCount_cons,
      isWaiterCall]

/-- The `onclose` handler empties the pending-request table. -/
theorem onclose_pending_empty (s : SessionState) (code : Nat)
    (hen : oncloseEnabled s = true) :
    (oncloseStep s code).1.pendingRequests = [] := by
  simp only [oncloseStep]
  rw [if_pos hen]
  split_ifs <;> rfl

theorem schedCount_nil : scheduleReconnectCount [] = 0 := rfl

theorem schedCount_cons (e : Event) (l : List Event) :
    scheduleReconnectCount (e :: l) =
      (if isScheduleReconnect e then 1 else 0) + scheduleReconnectCount l := by
  cases h : isScheduleReconnect e <;>
    simp [scheduleReconnectCount, List.filter_cons, h, Nat.add_comm]

theorem schedCount_append (l1 l2 : List Event) :
    scheduleReconnectCount (l1 ++ l2) =
      scheduleReconnectCount l1 + scheduleReconnectCount l2 := by
  simp [scheduleReconnectCount, List.filter_append]

theorem schedCount_map_fail (l : List (String × QueItem)) :
    scheduleReconnectCount (l.map fun p => Event.waiterCall p.1 none false) = 0 := by
  induction l with
  | nil => rfl
  | cons p t ih => simp [List.map_cons, schedCount_cons, isScheduleReconnect, ih]

theorem schedCount_ite_nil (c : Bool) (e : Event) (h : isScheduleReconnect e = false) :
    scheduleReconnectCount (if c then [e] else []) = 0 := by
  cases c <;> simp [schedCount_cons, schedCount_nil, h]

/-- No step changes the configuration snapshot field
`maxReconnectAttempts`. -/
theorem stepF_max_eq (s : SessionState) (st : Step) :
    (stepF s st).1.maxReconnectAttempts = s.maxReconnectAttempts := by
  cases st
  case userSendAndWait m now =>
    simp only [stepF, sendAndWait]
    by_cases hready : s.socketReady = some ReadyState.opened
    · rw [if_pos hready]
      simp [onResponse]
    · rw [if_neg hready]
  all_goals
    simp only [stepF, onopenStep, onmessageStep, oncloseStep, reconnectFireStep,
      connectOp, sweepStep, sendMessage, onResponse,
      heartbeatTickStep, heartbeatTimeoutFireStep, close] <;>
    (repeat' split) <;> rfl

/-- Except for a successful open (which resets it), no step ever decreases
`reconnectAttempts`. -/
theorem stepF_attempts_ge (s : SessionState) (st : Step) (h : isOnopen st = false) :
    s.reconnectAttempts ≤ (stepF s st).1.reconnectAttempts := by
  cases st
  case onopen => simp [isOnopen] at h
  case userSendAndWait m now =>
    simp only [stepF, sendAndWait]
    by_cases hready : s.socketReady = some ReadyState.opened
    · rw [if_pos hready]
      simp [onResponse]
    · rw [if_neg hready]
  all_goals
    simp only [stepF, onmessageStep, oncloseStep, reconnectFireStep,
      connectOp, sweepStep, sendMessage, onResponse,
      heartbeatTickStep, heartbeatTimeoutFireStep, close] <;>
    (repeat' split) <;> simp

/-- Once the retry budget is exhausted, a single step never registers a new
reconnect task. -/
theorem stepF_schedule_at_max (s : SessionState) (st : Step)
    (h : s.maxReconnectAttempts ≤ s.reconnectAttempts) :
    scheduleReconnectCount (stepF s st).2 = 0 := by
  cases st with
  | onclose code =>
    simp only [stepF, oncloseStep]
    by_cases hen : oncloseEnabled s = true
    · rw [if_pos hen]
      split_ifs <;>
        first
        | omega
        | simp [schedCount_append, schedCount_map_fail, schedCount_ite_nil,
            schedCount_cons, isScheduleReconnect, schedCount_nil]
    · rw [if_neg hen]
      rfl
  | userSendAndWait m now =>
    simp only [stepF, sendAndWait]
    by_cases hready : s.socketReady = some ReadyState.opened
    · rw [if_pos hready]
      simp only [onResponse, sendMessage]
      split <;>
        simp [schedCount_cons, isScheduleReconnect, schedCount_nil]
    · rw [if_neg hready]
      rfl
  | _ =>
    simp only [stepF, onopenStep, onmessageStep, reconnectFireStep,
      connectOp, sweepStep, sendMessage, onResponse,
      heartbeatTickStep, heartbeatTimeoutFireStep, close] <;>
    (repeat' split) <;>
    simp [schedCount_append, schedCount_map_fail, schedCount_ite_nil,
      schedCount_cons, isScheduleReconnect, schedCount_nil]

/-- Trace-level form: with the budget exhausted and no successful open in
the trace, no reconnect is ever scheduled again. -/
theorem run_no_schedule_at_max (s : SessionState) (tr : List Step)
    (htr : ∀ st ∈ tr, isOnopen st = false)
    (h : s.maxReconnectAttempts ≤ s.reconnectAttempts) :
    scheduleReconnectCount (runSteps s tr).2 = 0 := by
  induction tr generalizing s with
  | nil => rfl
  | cons st t ih =>
    simp only [runSteps, schedCount_append]
    have h1 := stepF_schedule_at_max s st h
    have h2 : (stepF s st).1.maxReconnectAttempts ≤ (stepF s st).1.reconnectAttempts := by
      rw [stepF_max_eq]
      exact Nat.le_trans h (stepF_attempts_ge s st (htr st (by simp)))
    have h3 := ih (stepF s st).1 (fun x hx => htr x (by simp [hx])) h2
    omega

/-!
### The claims
-/

end ObservableSocket

/-- C7: for every Envelope `e`, including envelopes with nested structured
(JSON-like) payloads, deserializing the output of `e.serialize()` yields a
value equal to `e` in all five fields (`uuid`, `route`, `headers`,
`payload`, `status`).  Serialization is modelled at the level of the JSON
document tree that `JSON.stringify` prints and `JSON.parse` recovers (the
JSON text grammar is the platform's, not this repository's). -/
theorem claim_C7_serialize_roundtrip (m : Message) :
    deserializeMessage m.serialize = some m := by
  obtain ⟨hs, u, r, p, st⟩ := m
  cases hs <;> cases r <;> rfl

namespace ObservableSocket

/-- C4: for every inbound frame that parses and is not a `PONG`, the
general push callback (when registered) is invoked with
`{message, success: true}`; when the frame's uuid additionally matches a
pending request, that waiter is also invoked with `{message, success:
true}` and its entry removed, and the push callback fires before the
waiter (the event list is in program order). -/
theorem claim_C4_inbound_delivery (s : SessionState) (m : Message)
    (hready : s.socketReady = some ReadyState.opened)
    (hcb : s.hasOnMessageReceived = true)
    (hpong : (m.route == some "PONG") = false) :
    (s.pendingRequests.lookup m.uuid = none →
      onmessageStep s (some m) = (s, [Event.push m])) ∧
    (∀ q, s.pendingRequests.lookup m.uuid = some q →
      (onmessageStep s (some m)).2 =
        [Event.push m, Event.waiterCall m.uuid (some m) true] ∧
      (onmessageStep s (some m)).1.pendingRequests =
        jsMapDelete s.pendingRequests m.uuid ∧
      pendCount m.uuid (onmessageStep s (some m)).1 + 1 = pendCount m.uuid s) := by
  constructor
  · intro hlk
    simp only [onmessageStep]
    rw [if_pos hready]
    simp [hpong, hlk, hcb]
  · intro q hlk
    refine ⟨?_, ?_, ?_⟩
    · simp only [onmessageStep]
      rw [if_pos hready]
      simp [hpong, hlk, hcb]
    · simp only [onmessageStep]
      rw [if_pos hready]
      simp [hpong, hlk, hcb]
    · simp only [onmessageStep]
      rw [if_pos hready]
      simp only [hpong, Bool.false_eq_true, if_false, hlk, hcb, if_true,
        pendCount, jsMapDelete]
      exact keyCount_eraseP_self (by rw [hlk]; rfl)

/-- C4 witness: on the sample state, the matching inbound reply produces
the push callback first and the waiter call second, in one turn. -/
theorem claim_C4_witness :
    sampleState.socketReady = some ReadyState.opened ∧
    (sampleReply.route == some "PONG") = false ∧
    (onmessageStep sampleState (some sampleReply)).2 =
      [Event.push sampleReply, Event.waiterCall "u1" (some sampleReply) true] :=
  ⟨rfl, by decide,
    ((claim_C4_inbound_delivery sampleState sampleReply rfl rfl (by decide)).2
      ⟨some 10⟩ (by decide)).1⟩

/-- C6: for every send issued while the transport is OPEN (`sendMessage`,
`onResponse`, and `sendAndWait`, which delegates to `onResponse`), the
headers written to the wire equal `globalHeaders` overlaid by the
envelope's own headers, the envelope's value winning on every key
collision (`onResponse` merges twice — once itself and once inside
`sendMessage` — which is absorbed). -/
theorem claim_C6_header_merge (s : SessionState) (m : Message) (now : Nat)
    (hready : s.socketReady = some ReadyState.opened) :
    ((sendMessage s m).2 = [Event.wireSend (Message.serialize (sendMessage s m).1)] ∧
      (sendMessage s m).1.headers = some (spreadRecord s.globalHeaders m.headers)) ∧
    (∀ k, (spreadRecord s.globalHeaders m.headers).lookup k =
      orElseO (lookupOpt m.headers k) (s.globalHeaders.lookup k)) ∧
    ((onResponse s m now).2.2 =
      [Event.wireSend (Message.serialize (onResponse s m now).1)] ∧
      ∀ k, lookupOpt (onResponse s m now).1.headers k =
        orElseO (lookupOpt m.headers k) (s.globalHeaders.lookup k)) ∧
    sendAndWait s m now = Except.ok (onResponse s m now) := by
  refine ⟨⟨?_, ?_⟩, ?_, ⟨?_, ?_⟩, ?_⟩
  · simp [sendMessage, hready]
  · simp [sendMessage, hready]
  · intro k
    exact lookup_spreadRecord _ _ k
  · simp [onResponse, sendMessage, hready]
  · intro k
    simp only [onResponse, sendMessage, hready, if_pos]
    simp only [lookupOpt]
    rw [lookup_spreadRecord]
    simp only [lookupOpt]
    rw [lookup_spreadRecord]
    exact orElseO_absorb _ _
  · simp [sendAndWait, hready]

/-- C6 witness: on the sample state the colliding key `token` resolves to
the request's own value. -/
theorem claim_C6_witness :
    sampleState.socketReady = some ReadyState.opened ∧
    (spreadRecord sampleState.globalHeaders sampleRequest.headers).lookup "token" =
      some (JVal.str "mine") :=
  ⟨rfl, by
    have h := (claim_C6_header_merge sampleState sampleRequest 100 rfl).2.1 "token"
    rw [h]
    rfl⟩

/-- C8: the only operation that raises a failure to its caller is
`sendAndWait`, and it does so exactly when no transport is OPEN at call
time; `sendMessage` and `onResponse` are total (no throw path in the
source), and a malformed inbound frame is handled locally inside the
`onmessage` handler (the `catch` branch logs and changes nothing). -/
theorem claim_C8_throw_policy (s : SessionState) (m : Message) (now : Nat) :
    (sendAndWait s m now = Except.error "WebSocket is not connected." ↔
      ¬s.socketReady = some ReadyState.opened) ∧
    (s.socketReady = some ReadyState.opened →
      sendAndWait s m now = Except.ok (onResponse s m now)) ∧
    (s.socketReady = some ReadyState.opened →
      onmessageStep s none = (s, [Event.logError])) := by
  refine ⟨?_, ?_, ?_⟩
  · by_cases hready : s.socketReady = some ReadyState.opened
    · simp [sendAndWait, hready]
    · simp [sendAndWait, hready]
  · intro hready
    simp [sendAndWait, hready]
  · intro hready
    simp [onmessageStep, hready]

/-- C8 witness: after `close()` the transport is no longer OPEN, so
`sendAndWait` rejects with the connection error; a malformed frame on an
open transport only logs. -/
theorem claim_C8_witness :
    ¬(close sampleState).1.socketReady = some ReadyState.opened ∧
    sendAndWait (close sampleState).1 sampleRequest 100 =
      Except.error "WebSocket is not connected." ∧
    onmessageStep sampleState none = (sampleState, [Event.logError]) :=
  ⟨by decide,
    (claim_C8_throw_policy (close sampleState).1 sampleRequest 100).1.mpr (by decide),
    (claim_C8_throw_policy sampleState sampleRequest 100).2.2 rfl⟩

/-- C9: calling `onResponse` while the transport is not OPEN still inserts
the waiter into `pendingRequests` with `expire = now + requestTimeout`,
transmits nothing (the only action is the error log), and invokes no
waiter at call time; the handler is only invoked later — by the
connection-close bulk failure, or by the expiry sweep once the entry's
expiry stamp has passed and the sweep loop is running. -/
theorem claim_C9_offline_onResponse (s : SessionState) (m : Message) (now code : Nat)
    (hready : ¬s.socketReady = some ReadyState.opened) :
    (onResponse s m now).2.1.pendingRequests.lookup m.uuid =
      some ⟨some (now + s.requestTimeout)⟩ ∧
    (onResponse s m now).2.2 = [Event.logError] ∧
    wireSendCount (onResponse s m now).2.2 = 0 ∧
    anyWaiterCount (onResponse s m now).2.2 = 0 ∧
    (oncloseEnabled (onResponse s m now).2.1 = true →
      1 ≤ waiterCount m.uuid (oncloseStep (onResponse s m now).2.1 code).2) ∧
    (∀ now2, (onResponse s m now).2.1.queManagerIntervalOn = true →
      queItemExpired ⟨some (now + s.requestTimeout)⟩ now2 = true →
      1 ≤ waiterCount m.uuid (sweepStep (onResponse s m now).2.1 now2).2) := by
  have hins : (onResponse s m now).2.1.pendingRequests.lookup m.uuid =
      some ⟨some (now + s.requestTimeout)⟩ := by
    simp only [onResponse, sendMessage]
    exact lookup_jsMapSet_self _ _ _
  refine ⟨hins, ?_, ?_, ?_, ?_, ?_⟩
  · simp [onResponse, sendMessage, hready]
  · simp [onResponse, sendMessage, hready, wireSendCount, isWireSend, List.filter]
  · simp [onResponse, sendMessage, hready, anyWaiterCount, isAnyWaiterCall, List.filter]
  · intro hen
    rw [onclose_waiterCount _ _ _ hen]
    exact keyCount_pos_of_lookup hins
  · intro now2 hq hexp
    simp only [sweepStep]
    rw [if_pos hq]
    exact waiterCount_pos_of_mem _ (mem_of_lookup hins) hexp

/-- C9 witness: on the closed sample state, `onResponse` registers the
waiter (expiring at `100 + 30000`) and only logs. -/
theorem claim_C9_witness :
    ¬(close sampleState).1.socketReady = some ReadyState.opened ∧
    (onResponse (close sampleState).1 sampleRequest 100).2.1.pendingRequests.lookup "u9" =
      some ⟨some 30100⟩ ∧
    wireSendCount (onResponse (close sampleState).1 sampleRequest 100).2.2 = 0 :=
  ⟨by decide,
    (claim_C9_offline_onResponse (close sampleState).1 sampleRequest 100 1000
      (by decide)).1,
    (claim_C9_offline_onResponse (close sampleState).1 sampleRequest 100 1000
      (by decide)).2.2.1⟩

/-- C10: sends mutate the caller's envelope in place: `onResponse` always
overwrites `request.headers` with the merged header map regardless of
transport state (merged twice when OPEN, which is extensionally the same
overlay), while `sendMessage` overwrites `message.headers` only when the
transport is OPEN and returns the message untouched otherwise; no other
field (`uuid`, `route`, `payload`, `status`) is ever modified. -/
theorem claim_C10_send_mutation (s : SessionState) (m : Message) (now : Nat) :
    (s.socketReady = some ReadyState.opened →
      (sendMessage s m).1 =
        { m with headers := some (spreadRecord s.globalHeaders m.headers) }) ∧
    (¬s.socketReady = some ReadyState.opened → (sendMessage s m).1 = m) ∧
    ((onResponse s m now).1.uuid = m.uuid ∧
      (onResponse s m now).1.route = m.route ∧
      (onResponse s m now).1.payload = m.payload ∧
      (onResponse s m now).1.status = m.status) ∧
    (¬s.socketReady = some ReadyState.opened →
      (onResponse s m now).1 =
        { m with headers := some (spreadRecord s.globalHeaders m.headers) }) ∧
    (s.socketReady = some ReadyState.opened →
      (onResponse s m now).1 =
        { m with headers := some (spreadRecord s.globalHeaders
              (some (spreadRecord s.globalHeaders m.headers))) } ∧
      ∀ k, lookupOpt (onResponse s m now).1.headers k =
        orElseO (lookupOpt m.headers k) (s.globalHeaders.lookup k)) := by
  refine ⟨?_, ?_, ?_, ?_, ?_⟩
  · intro hready
    simp [sendMessage, hready]
  · intro hready
    simp [sendMessage, hready]
  · simp only [onResponse, sendMessage]
    split <;> exact ⟨rfl, rfl, rfl, rfl⟩
  · intro hready
    simp [onResponse, sendMessage, hready]
  · intro hready
    constructor
    · simp [onResponse, sendMessage, hready]
    · intro k
      simp only [onResponse, sendMessage, hready, if_pos]
      simp only [lookupOpt]
      rw [lookup_spreadRecord]
      simp only [lookupOpt]
      rw [lookup_spreadRecord]
      exact orElseO_absorb _ _

/-- C10 witness: on the open sample state, `sendMessage` rewrites exactly
the headers field of the request with the merged map. -/
theorem claim_C10_witness :
    sampleState.socketReady = some ReadyState.opened ∧
    (sendMessage sampleState sampleRequest).1 =
      { sampleRequest with headers := some (spreadRecord
          sampleState.globalHeaders sampleRequest.headers) } :=
  ⟨rfl, (claim_C10_send_mutation sampleState sampleRequest 100).1 rfl⟩

/-- C1: for every correlated send whose correlation id `u` is
process-unique (modelled: no step of the execution registers `u` again),
the registered waiter is invoked at most once over any execution, and
exactly once over any execution at whose end `u` is no longer pending;
moreover an enabled connection-close step always removes (and fails) the
entry, and an enabled sweep tick removes (and fails) it once expired — so
an execution that eventually closes the session or expires the request
resolves the waiter exactly once, by exactly one of the three mechanisms
(matching frame, expiry sweep, close bulk failure). -/
theorem claim_C1_exactly_once (u : String) (s : SessionState) (tr : List Step)
    (code now : Nat) (q : QueItem)
    (hreg : ∀ st ∈ tr, registersUuid u st = false) :
    (pendCount u s ≤ 1 → waiterCount u (runSteps s tr).2 ≤ 1) ∧
    (pendCount u s = 1 → pendCount u (runSteps s tr).1 = 0 →
      waiterCount u (runSteps s tr).2 = 1) ∧
    (oncloseEnabled s = true → pendCount u (oncloseStep s code).1 = 0 ∧
      waiterCount u (oncloseStep s code).2 = pendCount u s) ∧
    (s.queManagerIntervalOn = true → pendCount u s = 1 →
      s.pendingRequests.lookup u = some q → queItemExpired q now = true →
      pendCount u (sweepStep s now).1 = 0 ∧
      waiterCount u (sweepStep s now).2 = 1) := by
  have hbal := run_waiter_balance u s tr hreg
  refine ⟨?_, ?_, ?_, ?_⟩
  · intro h1
    omega
  · intro h1 h2
    omega
  · intro hen
    refine ⟨?_, onclose_waiterCount s code u hen⟩
    simp [pendCount, onclose_pending_empty s code hen, keyCount_nil, keyCount]
  · intro hq h1 hlk hexp
    have hrm : pendCount u (sweepStep s now).1 = 0 := by
      simp only [sweepStep]
      rw [if_pos hq]
      simp only [pendCount]
      exact sweep_removes_expired h1 hlk hexp
    refine ⟨hrm, ?_⟩
    have hstep := step_waiter_balance u s (Step.sweep now) (by simp [registersUuid])
    simp only [stepF] at hstep
    omega

/-- C1 witness: the sample pending request is resolved exactly once by a
close event. -/
theorem claim_C1_witness :
    pendCount "u1" sampleState = 1 ∧
    pendCount "u1" (runSteps sampleState [Step.onclose 1000]).1 = 0 ∧
    waiterCount "u1" (runSteps sampleState [Step.onclose 1000]).2 = 1 :=
  ⟨by decide, by decide,
    (claim_C1_exactly_once "u1" sampleState [Step.onclose 1000] 1000 50 ⟨some 10⟩
      (by decide)).2.1 (by decide) (by decide)⟩

/-- C2 counterexample: `close()` itself does not fail the outstanding
waiters synchronously — on a state with one pending request, after the
`close()` call the entry is still in `pendingRequests` and no waiter
handler has been invoked (the bulk failure only happens in the transport's
later `onclose` event). -/
theorem claim_C2_counterexample :
    (close sampleState).1.pendingRequests.length = 1 ∧
    pendCount "u1" (close sampleState).1 = 1 ∧
    waiterCount "u1" (close sampleState).2 = 0 := by
  refine ⟨rfl, by decide, rfl⟩

/-- C2 amended: `close()` synchronously sets `manuallyClosed`, stops the
heartbeat timers and the sweep timer, and requests the transport to close,
but leaves `pendingRequests` untouched; every outstanding waiter is failed
with `{message: null, success: false}` and the table emptied only when the
transport's close event subsequently fires. -/
theorem claim_C2_amended (s : SessionState) (code : Nat)
    (hen : oncloseEnabled (close s).1 = true) :
    (close s).1.manuallyClosed = true ∧
    (close s).1.heartbeatIntervalOn = false ∧
    (close s).1.heartbeatTimeoutOn = false ∧
    (close s).1.queManagerIntervalOn = false ∧
    (close s).1.pendingRequests = s.pendingRequests ∧
    (close s).2 = [Event.requestClose] ∧
    (oncloseStep (close s).1 code).1.pendingRequests = [] ∧
    (∀ u, waiterCount u (oncloseStep (close s).1 code).2 = pendCount u s) ∧
    (∃ rest, (oncloseStep (close s).1 code).2 =
      (s.pendingRequests.map fun p => Event.waiterCall p.1 none false) ++ rest) := by
  refine ⟨rfl, rfl, rfl, rfl, rfl, rfl, onclose_pending_empty _ code hen, ?_, ?_⟩
  · intro u
    rw [onclose_waiterCount _ code u hen]
    rfl
  · simp only [oncloseStep]
    rw [if_pos hen]
    split_ifs <;>
      first
      | exact ⟨_, rfl⟩
      | exact ⟨_, List.append_assoc _ _ _⟩

/-- C2 witness: closing the open sample session leaves its pending entry in
place, and the subsequent close event empties the table. -/
theorem claim_C2_witness :
    oncloseEnabled (close sampleState).1 = true ∧
    (close sampleState).1.manuallyClosed = true ∧
    (oncloseStep (close sampleState).1 1000).1.pendingRequests = [] :=
  ⟨by decide, (claim_C2_amended sampleState 1000 (by decide)).1,
    (claim_C2_amended sampleState 1000 (by decide)).2.2.2.2.2.2.1⟩

/-- C3 counterexample: on a state where the close handler has already
scheduled a reconnect, calling `close()` sets `manuallyClosed`, yet the
pending reconnect task still fires afterwards: it opens a new transport and
even resets `manuallyClosed` to `false` — refuting that no reconnect is
ever attempted in any step after `close()`. -/
theorem claim_C3_counterexample :
    (oncloseStep sampleState 1000).1.reconnectScheduled = true ∧
    (close (oncloseStep sampleState 1000).1).1.manuallyClosed = true ∧
    openTransportCount
      (reconnectFireStep (close (oncloseStep sampleState 1000).1).1).2 = 1 ∧
    (reconnectFireStep (close (oncloseStep sampleState 1000).1).1).1.manuallyClosed
      = false := by
  refine ⟨by decide, by decide, by decide, by decide⟩

/-- C3 amended: once `manuallyClosed` is set, the close handler never
schedules a new reconnect (and leaves the scheduled-reconnect flag
unchanged); however a reconnect task scheduled before `close()` still
fires: it increments the attempt counter, opens a new transport to the
same url, and resets `manuallyClosed` to `false`. -/
theorem claim_C3_amended (s : SessionState) (code : Nat)
    (h : s.manuallyClosed = true) :
    scheduleReconnectCount (oncloseStep s code).2 = 0 ∧
    (oncloseStep s code).1.reconnectScheduled = s.reconnectScheduled ∧
    (s.reconnectScheduled = true →
      (reconnectFireStep s).2 = [Event.openTransport s.socketUrl] ∧
      (reconnectFireStep s).1.manuallyClosed = false ∧
      (reconnectFireStep s).1.reconnectAttempts = s.reconnectAttempts + 1) := by
  refine ⟨?_, ?_, ?_⟩
  · simp only [oncloseStep]
    by_cases hen : oncloseEnabled s = true
    · rw [if_pos hen]
      split_ifs <;>
        first
        | simp [schedCount_append, schedCount_map_fail, schedCount_ite_nil,
            schedCount_cons, isScheduleReconnect, schedCount_nil]
        | simp_all
    · rw [if_neg hen]
      rfl
  · simp only [oncloseStep]
    by_cases hen : oncloseEnabled s = true
    · rw [if_pos hen]
      split_ifs <;> first | rfl | simp_all
    · rw [if_neg hen]
  · intro hsch
    simp only [reconnectFireStep, connectOp]
    rw [if_pos hsch]
    exact ⟨rfl, rfl, rfl⟩

/-- C3 witness: with the reconnect scheduled and the session then manually
closed, the close handler schedules nothing further. -/
theorem claim_C3_witness :
    (close (oncloseStep sampleState 1000).1).1.manuallyClosed = true ∧
    (close (oncloseStep sampleState 1000).1).1.reconnectScheduled = true ∧
    scheduleReconnectCount
      (oncloseStep (close (oncloseStep sampleState 1000).1).1 1006).2 = 0 :=
  ⟨by decide, by decide,
    (claim_C3_amended (close (oncloseStep sampleState 1000).1).1 1006 (by decide)).1⟩

/-- C5: the deterministic backoff component doubles per attempt and is
capped at 15000 ms, hence non-decreasing across consecutive failures; with
jitters in `[0, 300)` the full delay is still non-decreasing as long as the
next backoff is below the cap; the close handler schedules the reconnect
with exactly this backoff while the budget lasts; and once
`reconnectAttempts` has reached `maxReconnectAttempts`, no execution
without an intervening successful open ever schedules a reconnect again. -/
theorem claim_C5_backoff (a : Nat) (j j' : ℚ) (s : SessionState) (tr : List Step)
    (code : Nat) :
    backoffMs a ≤ backoffMs (a + 1) ∧
    backoffMs a ≤ 15000 ∧
    (0 ≤ j → j < 300 → 0 ≤ j' → j' < 300 → 1000 * 2 ^ (a + 1) ≤ 15000 →
      (backoffMs a : ℚ) + j ≤ (backoffMs (a + 1) : ℚ) + j') ∧
    (oncloseEnabled s = true → (code == 1008 || code == 1011) = false →
      s.manuallyClosed = false → s.reconnectAttempts < s.maxReconnectAttempts →
      (oncloseStep s code).2 =
        (s.pendingRequests.map fun p => Event.waiterCall p.1 none false) ++
          (if s.hasOnConnectionChange then [Event.connChange s.name false] else []) ++
          [Event.scheduleReconnect (backoffMs s.reconnectAttempts)] ∧
      (oncloseStep s code).1.reconnectScheduled = true) ∧
    (s.maxReconnectAttempts ≤ s.reconnectAttempts →
      (∀ st ∈ tr, isOnopen st = false) →
      scheduleReconnectCount (runSteps s tr).2 = 0) := by
  refine ⟨?_, ?_, ?_, ?_, ?_⟩
  · unfold backoffMs
    refine min_le_min (Nat.le_refl _) ?_
    have h2 : (2:Nat) ^ a ≤ 2 ^ (a + 1) :=
      Nat.pow_le_pow_right (by omega) (by omega)
    exact Nat.mul_le_mul_left 1000 h2
  · exact Nat.min_le_left _ _
  · intro hj0 hj hj'0 hj' hcap
    have hmono : 1000 * 2 ^ a ≤ 1000 * 2 ^ (a + 1) :=
      Nat.mul_le_mul_left 1000 (Nat.pow_le_pow_right (by omega) (by omega))
    have hcap' : 1000 * 2 ^ a ≤ 15000 := Nat.le_trans hmono hcap
    unfold backoffMs
    rw [Nat.min_eq_right hcap', Nat.min_eq_right hcap]
    push_cast
    rw [pow_succ]
    have hnat : (1:Nat) ≤ 2 ^ a := Nat.one_le_pow a 2 (by omega)
    have hx : (1:ℚ) ≤ (2:ℚ) ^ a := by exact_mod_cast hnat
    nlinarith
  · intro hen hpol hman hatt
    simp only [oncloseStep]
    rw [if_pos hen, if_neg (by simp [hpol]), if_neg (by simp [hman]), if_pos hatt]
    exact ⟨rfl, rfl⟩
  · intro hmax htr
    exact run_no_schedule_at_max s tr htr hmax

/-- C5 witness: concrete backoff monotonicity with jitter below the cap,
and a maxed-out session scheduling nothing on a further close. -/
theorem claim_C5_witness :
    1000 * 2 ^ (2 + 1) ≤ 15000 ∧
    (backoffMs 2 : ℚ) + 5 ≤ (backoffMs 3 : ℚ) + 0 ∧
    maxedState.maxReconnectAttempts ≤ maxedState.reconnectAttempts ∧
    scheduleReconnectCount (runSteps maxedState [Step.onclose 1000]).2 = 0 :=
  ⟨by norm_num,
    (claim_C5_backoff 2 5 0 maxedState [Step.onclose 1000] 1000).2.2.1
      (by norm_num) (by norm_num) (by norm_num) (by norm_num) (by norm_num),
    by decide,
    (claim_C5_backoff 2 5 0 maxedState [Step.onclose 1000] 1000).2.2.2.2
      (by decide) (by decide)⟩

end ObservableSocket
